import Mathlib

/-!
Shallow embedding of the kittenclicker2 server (two variants: the
offline-data variant `src/unnamed/part_000` and the simpler variant
`src/server.js`) and verification of the frozen claims about it.

Timestamps and point balances are JavaScript numbers; the code only ever
adds, subtracts, compares and floor-divides them, so they are modelled as
`Int` (with `Math.floor(e/1000)` for `e ≥ 0` rendered as `Nat` division on
`e.toNat`).  JavaScript's `x || d` on numbers treats `0` as falsy, which is
modelled explicitly by `jsOr`.
-/

namespace KC

/-- An offline record: `{points, lastSeen}` as kept in the `offlineData`
map of `part_000`. -/
structure OfflineRecord where
  points : Int
  lastSeen : Int
deriving DecidableEq, Repr

/-- `POINTS_PER_SECOND_OFFLINE = 1` (part_000 line 11). -/
def POINTS_PER_SECOND_OFFLINE : Int := 1

/-- JavaScript `x || d` on numbers (`0` is falsy; `NaN` is outside the
model). -/
def jsOr (x d : Int) : Int := if x = 0 then d else x

/-- `awardOfflinePoints(stored, nowMs)` (part_000 lines 46-52):
`elapsedMs = Math.max(0, nowMs - (stored.lastSeen || nowMs))`;
`points = Math.floor(elapsedMs / 1000) * POINTS_PER_SECOND_OFFLINE`;
`stored.points = (stored.points || 0) + points; stored.lastSeen = nowMs`.
Since `elapsedMs ≥ 0`, `Math.floor(elapsedMs / 1000)` is `Nat` division on
`elapsedMs.toNat`. -/
def awardOfflinePoints (stored : OfflineRecord) (nowMs : Int) : OfflineRecord :=
  let elapsedMs : Int := max 0 (nowMs - jsOr stored.lastSeen nowMs)
  let points : Int := (elapsedMs.toNat / 1000 : Nat) * POINTS_PER_SECOND_OFFLINE
  { points := jsOr stored.points 0 + points, lastSeen := nowMs }

/-- The record written for a key by the presence middleware (part_000
lines 76-82) and by `/my-offline` (lines 156-159): create
`{points: 0, lastSeen: now}` when absent, else run `awardOfflinePoints`. -/
def touchRecord (stored : Option OfflineRecord) (now : Int) : OfflineRecord :=
  match stored with
  | none => { points := 0, lastSeen := now }
  | some st => awardOfflinePoints st now

/-- Effect of the middleware's offline-data pass on the whole map
(part_000 lines 76-82): only the requester's key is rewritten. -/
def middlewareOffline (m : String → Option OfflineRecord) (k : String) (now : Int) :
    String → Option OfflineRecord :=
  fun k' => if k' = k then some (touchRecord (m k) now) else m k'

/-- One review `{text, timestamp}`. -/
structure Review where
  text : String
  timestamp : Int
deriving DecidableEq, Repr

/-- A `/submit-review` request body; each field may be absent. -/
structure ReviewBody where
  text : Option String
  timestamp : Option Int
deriving DecidableEq, Repr

/-- JavaScript truthiness of a possibly-absent string (`undefined` and
`""` are falsy). -/
def truthyStr : Option String → Bool
  | none => false
  | some s => !(s == "")

/-- JavaScript truthiness of a possibly-absent number (`undefined` and
`0` are falsy). -/
def truthyNum : Option Int → Bool
  | none => false
  | some n => !(n == 0)

/-- `reviews.push({text, timestamp}); if (reviews.length > 100) reviews =
reviews.slice(-100)` (part_000 lines 126-127): `slice(-100)` keeps the
last 100 elements. -/
def pushReview (reviews : List Review) (r : Review) : List Review :=
  let rs := reviews ++ [r]
  if rs.length > 100 then rs.drop (rs.length - 100) else rs

/-- JSON responses of the endpoints. -/
inductive Response where
  | success
  | failure (error : String)
  | offline (data : OfflineRecord)
  | myOffline (points lastSeen : Int)
  | reviews (reviews : List Review)
  | counts (current : Nat) (total : Nat)
  | page
deriving DecidableEq, Repr

/-- `POST /submit-review` handler of part_000 (lines 123-129):
reject when `!text || !timestamp`, else append (capped at 100). -/
def submitReviewH (reviews : List Review) (b : ReviewBody) : List Review × Response :=
  if !(truthyStr b.text) || !(truthyNum b.timestamp) then
    (reviews, .failure "Missing required fields")
  else
    (pushReview reviews { text := b.text.getD "", timestamp := b.timestamp.getD 0 }, .success)

/-- `GET /get-reviews` (part_000 lines 131-133): `reviews.slice(-10).reverse()`. -/
def getReviews (reviews : List Review) : List Review :=
  (reviews.drop (reviews.length - 10)).reverse

/-- The endpoints of the part_000 variant. -/
inductive Endpoint where
  | root
  | playerCount
  | playerCountStream
  | submitReview (body : ReviewBody)
  | getReviews
  | saveOfflineData (playerId : String) (payload : Option OfflineRecord)
  | getOfflineData (playerId : String)
  | myOffline
deriving DecidableEq, Repr

/-- An inbound request: `clientId` is the PlayerKey the middleware derives
(`x-client-id` header, else IP, else fallback), `now` is `Date.now()`
during its processing.  A missing/empty `playerId` body field is the empty
string (JavaScript `!playerId`). -/
structure Request where
  clientId : String
  now : Int
  endpoint : Endpoint
deriving DecidableEq, Repr

/-- In-memory state of the part_000 variant. -/
structure ServerState where
  currentPlayers : Nat
  totalPlayers : Nat
  activePlayers : Finset String
  reviews : List Review
  offlineData : String → Option OfflineRecord

/-- The state at process start with no (or failed) persisted data. -/
def initState : ServerState :=
  { currentPlayers := 0, totalPlayers := 0, activePlayers := ∅,
    reviews := [], offlineData := fun _ => none }

/-- The presence middleware of part_000 (lines 71-95), minus the close
callback: touch the requester's offline record, add the key to
`activePlayers`, recompute `currentPlayers`, and raise `totalPlayers` to
`Math.max(totalPlayers, currentPlayers)`. -/
def middlewareStep (s : ServerState) (k : String) (now : Int) : ServerState :=
  let ap := insert k s.activePlayers
  { s with offlineData := middlewareOffline s.offlineData k now,
           activePlayers := ap,
           currentPlayers := ap.card,
           totalPlayers := max s.totalPlayers ap.card }

/-- The per-endpoint handlers of part_000 (lines 98-161), run after the
middleware. -/
def handlerStep (s : ServerState) (r : Request) : ServerState × Response :=
  match r.endpoint with
  | .root => ({ s with totalPlayers := s.totalPlayers + 1 }, .page)
  | .playerCount => (s, .counts s.currentPlayers s.totalPlayers)
  | .playerCountStream => (s, .counts s.currentPlayers s.totalPlayers)
  | .submitReview b =>
      let (rs, resp) := submitReviewH s.reviews b
      ({ s with reviews := rs }, resp)
  | .getReviews => (s, .reviews (getReviews s.reviews))
  | .saveOfflineData pid payload =>
      if pid = "" then (s, .failure "Missing required fields")
      else match payload with
        | none => (s, .failure "Missing required fields")
        | some d =>
            ({ s with offlineData := fun k => if k = pid then some d else s.offlineData k },
             .success)
  | .getOfflineData pid =>
      if pid = "" then (s, .failure "Missing player ID")
      else match s.offlineData pid with
        | some d => (s, .offline d)
        | none => (s, .failure "No offline data found")
  | .myOffline =>
      if r.clientId = "" then (s, .failure "No client ID or IP found")
      else
        let st := touchRecord (s.offlineData r.clientId) r.now
        ({ s with offlineData := fun k => if k = r.clientId then some st else s.offlineData k },
         .myOffline st.points st.lastSeen)

/-- Full processing of one request in part_000: middleware, then handler. -/
def processRequest (s : ServerState) (r : Request) : ServerState × Response :=
  handlerStep (middlewareStep s r.clientId r.now) r

/-- The `close` callback registered by the middleware (part_000 lines
89-92): delete the captured key, recompute `currentPlayers`. -/
def closeStep (s : ServerState) (k : String) : ServerState :=
  let ap := s.activePlayers.erase k
  { s with activePlayers := ap, currentPlayers := ap.card }

/-- Events driving the part_000 server: a request being processed, or the
close of a connection whose middleware captured key `k`. -/
inductive Ev where
  | req (r : Request)
  | close (k : String)
deriving DecidableEq, Repr

/-- One event step of the part_000 server. -/
def stepEv (s : ServerState) : Ev → ServerState
  | .req r => (processRequest s r).1
  | .close k => closeStep s k

/-- Run the part_000 server over a list of events. -/
def run000 (s : ServerState) (evs : List Ev) : ServerState :=
  evs.foldl stepEv s

/-- The `currentPlayers` value observed at each middleware pass while
running `evs`. -/
def obsCurrents (s : ServerState) : List Ev → List Nat
  | [] => []
  | .req r :: t =>
      (middlewareStep s r.clientId r.now).currentPlayers :: obsCurrents (stepEv s (.req r)) t
  | .close k :: t => obsCurrents (closeStep s k) t

/-- Whether an event is a root-page request. -/
def isRootReq : Ev → Bool
  | .req r => r.endpoint == .root
  | .close _ => false

/-! ### Presence submodel

The presence bookkeeping of both variants in isolation: `add(clientId)` at
request start (part_000 line 85, server.js line 36) and `delete(clientId)`
when a connection whose middleware captured `k` closes (part_000 line 90,
server.js line 41). -/

/-- A presence event: a request starts with key `k`, or a connection whose
captured key is `k` closes. -/
inductive PEvent where
  | start (k : String)
  | close (k : String)
deriving DecidableEq, Repr

/-- The key an event is attributed to. -/
def keyOf : PEvent → String
  | .start k => k
  | .close k => k

/-- One presence mutation: `activePlayers.add` / `activePlayers.delete`. -/
def presenceStep (s : Finset String) : PEvent → Finset String
  | .start k => insert k s
  | .close k => s.erase k

/-- The `activePlayers` set after a list of presence events, from empty. -/
def runPresence (evs : List PEvent) : Finset String :=
  evs.foldl presenceStep ∅

/-- Net number of open connections attributed to `k` after `evs`
(each start opens one, each close closes one). -/
def openConns (evs : List PEvent) (k : String) : Int :=
  evs.foldl (fun n e => match e with
    | .start k' => if k' = k then n + 1 else n
    | .close k' => if k' = k then n - 1 else n) 0

/-- Bump a connection-count map at `k` by `d`. -/
def bump (cnt : String → Int) (k : String) (d : Int) : String → Int :=
  fun k' => if k' = k then cnt k' + d else cnt k'

/-- An event sequence is valid from counts `cnt` when every close closes a
connection that is actually open. -/
def validFrom (cnt : String → Int) : List PEvent → Bool
  | [] => true
  | .start k :: t => validFrom (bump cnt k 1) t
  | .close k :: t => decide (0 < cnt k) && validFrom (bump cnt k (-1)) t

/-- Whether the most recent event attributed to `k` is a request start. -/
def lastTouchIsStart (evs : List PEvent) (k : String) : Bool :=
  match (evs.filter (fun e => keyOf e == k)).getLast? with
  | some (.start _) => true
  | _ => false

/-! ### The server.js variant -/

/-- The endpoints of the server.js variant. -/
inductive SJEndpoint where
  | root
  | playerCount
  | playerCountStream
  | submitReview (body : ReviewBody)
  | getReviews
deriving DecidableEq, Repr

/-- In-memory state of the server.js variant (`data.totalPlayers`,
`data.reviews`, plus runtime presence). -/
structure SJState where
  totalPlayers : Nat
  reviews : List Review
  activePlayers : Finset String
  currentPlayers : Nat

/-- `POST /submit-review` of server.js (lines 86-105): like part_000 but
the stored text is trimmed. -/
def submitReviewSJ (reviews : List Review) (b : ReviewBody) : List Review × Response :=
  if !(truthyStr b.text) || !(truthyNum b.timestamp) then
    (reviews, .failure "Missing required fields")
  else
    (pushReview reviews { text := (b.text.getD "").trim, timestamp := b.timestamp.getD 0 },
     .success)

/-- The presence middleware of server.js (lines 32-46), minus the close
callback: `totalPlayers` is untouched. -/
def sjMiddleware (s : SJState) (k : String) : SJState :=
  let ap := insert k s.activePlayers
  { s with activePlayers := ap, currentPlayers := ap.card }

/-- The per-endpoint handlers of server.js: only `GET /` touches
`totalPlayers` (line 50). -/
def sjHandler (s : SJState) : SJEndpoint → SJState
  | .root => { s with totalPlayers := s.totalPlayers + 1 }
  | .submitReview b => { s with reviews := (submitReviewSJ s.reviews b).1 }
  | _ => s

/-- Events driving the server.js variant. -/
inductive EvSJ where
  | req (k : String) (ep : SJEndpoint)
  | close (k : String)
deriving DecidableEq, Repr

/-- One event step of the server.js variant. -/
def stepSJ (s : SJState) : EvSJ → SJState
  | .req k ep => sjHandler (sjMiddleware s k) ep
  | .close k =>
      let ap := s.activePlayers.erase k
      { s with activePlayers := ap, currentPlayers := ap.card }

/-- Run the server.js variant over a list of events. -/
def runSJ (s : SJState) (evs : List EvSJ) : SJState :=
  evs.foldl stepSJ s

/-- Number of root-page requests in a server.js event list. -/
def countRoots (evs : List EvSJ) : Nat :=
  (evs.filter (fun e => match e with | .req _ .root => true | _ => false)).length

/-! ### Persistence load paths -/

/-- A raw record as parsed from `offlineData.json`; either field may be
absent. -/
structure RawRecord where
  points : Option Int
  lastSeen : Option Int
deriving DecidableEq, Repr

/-- JavaScript `x || d` where `x` may be absent (`undefined` and `0` are
falsy). -/
def jsOrOpt (x : Option Int) (d : Int) : Int :=
  match x with
  | none => d
  | some v => if v = 0 then d else v

/-- The per-record normalisation of the part_000 load (lines 26-30):
`v.points = Number(v.points || 0); v.lastSeen = Number(v.lastSeen || Date.now())`. -/
def normalizeRecord (v : RawRecord) (now : Int) : OfflineRecord :=
  { points := jsOrOpt v.points 0, lastSeen := jsOrOpt v.lastSeen now }

/-- The part_000 startup load (lines 20-35): `parsed = none` covers a
missing file and any read/parse failure (the catch resets to an empty
map); on success the parsed entries are normalised into the map. -/
def loadOfflineData (parsed : Option (List (String × RawRecord))) (now : Int) :
    String → Option OfflineRecord :=
  match parsed with
  | none => fun _ => none
  | some entries => fun k => (entries.lookup k).map (fun v => normalizeRecord v now)

/-- The persisted document of server.js (`data.json`); the spread merge
`{...data, ...loaded}` keeps a default for any absent field. -/
structure SJPersist where
  totalPlayers : Option Nat
  reviews : Option (List Review)
deriving DecidableEq, Repr

/-- The server.js startup load (lines 10-22): defaults
`{totalPlayers: 0, reviews: []}`, overridden field-wise by a successfully
parsed document; any read/parse failure keeps the defaults. -/
def loadData (parsed : Option SJPersist) : Nat × List Review :=
  match parsed with
  | none => (0, [])
  | some l => (l.totalPlayers.getD 0, l.reviews.getD [])

/-! ## Helper lemmas -/

theorem jsOr_zero (x : Int) : jsOr x 0 = x := by
  unfold jsOr; split <;> simp_all

theorem jsOr_of_ne (x d : Int) (h : x ≠ 0) : jsOr x d = x := by
  unfold jsOr; rw [if_neg h]

/-- When the stored `lastSeen` is nonzero (so the `|| nowMs` fallback is
inert), `awardOfflinePoints` credits exactly the floored elapsed seconds. -/
theorem awardOfflinePoints_eq (st : OfflineRecord) (now : Int) (h : st.lastSeen ≠ 0) :
    awardOfflinePoints st now =
      { points := st.points + ((max 0 (now - st.lastSeen)).toNat / 1000 : Nat) * POINTS_PER_SECOND_OFFLINE,
        lastSeen := now } := by
  unfold awardOfflinePoints
  rw [jsOr_of_ne st.lastSeen now h, jsOr_zero]

theorem awardOfflinePoints_points_le (st : OfflineRecord) (now : Int) :
    st.points ≤ (awardOfflinePoints st now).points := by
  simp only [awardOfflinePoints, jsOr_zero]
  have h1 : (0 : Int) ≤ (((max 0 (now - jsOr st.lastSeen now)).toNat / 1000 : Nat) : Int) :=
    Int.natCast_nonneg _
  have h2 : (0 : Int) ≤ POINTS_PER_SECOND_OFFLINE := by unfold POINTS_PER_SECOND_OFFLINE; omega
  have h3 := mul_nonneg h1 h2
  omega

theorem awardOfflinePoints_lastSeen (st : OfflineRecord) (now : Int) :
    (awardOfflinePoints st now).lastSeen = now := rfl

/-! ## Claims C1, C4, C5: the accrual engine -/

/-- C1 (counterexample): for a key first seen at `t0 = 0`, the second
accrual call at `t = 3500` credits nothing instead of the claimed
`floor(3500/1000) * rate = 3`, because the stored `lastSeen = 0` is falsy
and `stored.lastSeen || nowMs` replaces it with `nowMs`. -/
theorem c1_counterexample :
    touchRecord (some (touchRecord none 0)) 3500 = { points := 0, lastSeen := 3500 } ∧
    ({ points := 0, lastSeen := 3500 } : OfflineRecord) ≠
      { points := ((3500 / 1000 : Nat) : Int) * POINTS_PER_SECOND_OFFLINE, lastSeen := 3500 } := by
  constructor <;> decide

/-- C1 (amended): for every key with no prior record, the first accrual
call at `t0` creates `{points: 0, lastSeen: t0}` and credits nothing, and
a second call at `t0 + Δ` credits `floor(Δ/1000) * rate` and sets
`lastSeen = t0 + Δ` — provided `t0 ≠ 0` (a stored `lastSeen` of `0` is
treated as absent by the accrual routine's `||` fallback, so a record
created at `t0 = 0` earns nothing on the second call). -/
theorem c1_accrual_pair (m : String → Option OfflineRecord) (k : String) (t0 : Int) (d : Nat)
    (hm : m k = none) (h0 : t0 ≠ 0) :
    middlewareOffline m k t0 k = some { points := 0, lastSeen := t0 } ∧
    middlewareOffline (middlewareOffline m k t0) k (t0 + d) k =
      some { points := ((d / 1000 : Nat) : Int) * POINTS_PER_SECOND_OFFLINE, lastSeen := t0 + d } := by
  have h1 : middlewareOffline m k t0 k = some { points := 0, lastSeen := t0 } := by
    simp [middlewareOffline, touchRecord, hm]
  refine ⟨h1, ?_⟩
  show (if k = k then some (touchRecord (middlewareOffline m k t0 k) (t0 + d))
        else middlewareOffline m k t0 k) = _
  rw [if_pos rfl, h1]
  show some (awardOfflinePoints { points := 0, lastSeen := t0 } (t0 + d)) = _
  rw [awardOfflinePoints_eq _ _ h0]
  have h2 : t0 + (d : Int) - t0 = (d : Int) := by ring
  have h3 : max 0 (d : Int) = (d : Int) := max_eq_right (Int.natCast_nonneg d)
  simp [h2, h3, Int.toNat_natCast]

/-- C1 (witness): with `t0 = 7` and `Δ = 3500`, the first call creates
`{points: 0, lastSeen: 7}` and the second credits 3 points. -/
theorem c1_accrual_pair_witness :
    middlewareOffline (fun _ => none) "p" 7 "p" = some { points := 0, lastSeen := 7 } ∧
    middlewareOffline (middlewareOffline (fun _ => none) "p" 7) "p" (7 + 3500) "p" =
      some { points := ((3500 / 1000 : Nat) : Int) * POINTS_PER_SECOND_OFFLINE, lastSeen := 7 + 3500 } :=
  c1_accrual_pair (fun _ => none) "p" 7 3500 rfl (by decide)

/-- C4 (confirmed): `points` never decreases under the accrual routine
(the elapsed time is clamped at `0`, so even `now < lastSeen` credits a
non-negative amount), under the middleware's offline pass at every key,
while `/save-offline-data` replaces the stored record with exactly the
client-supplied payload. -/
theorem c4_points_monotone :
    (∀ st now, st.points ≤ (awardOfflinePoints st now).points) ∧
    (∀ m k now k' a b, m k' = some a → middlewareOffline m k now k' = some b →
      a.points ≤ b.points) ∧
    (∀ s (r : Request) pid d, r.endpoint = .saveOfflineData pid (some d) → pid ≠ "" →
      (processRequest s r).1.offlineData pid = some d) := by
  refine ⟨awardOfflinePoints_points_le, ?_, ?_⟩
  · intro m k now k' a b ha hb
    unfold middlewareOffline at hb
    by_cases hk : k' = k
    · rw [if_pos hk] at hb
      rw [hk] at ha
      rw [ha] at hb
      have : b = awardOfflinePoints a now := by
        simpa [touchRecord] using hb.symm
      rw [this]
      exact awardOfflinePoints_points_le a now
    · rw [if_neg hk] at hb
      rw [ha] at hb
      injection hb with h
      rw [← h]
  · intro s r pid d he hpid
    simp [processRequest, handlerStep, he, hpid]

/-- C4 (witness): a record `{points: 5, lastSeen: 7}` touched at `t = 2007`
does not lose points, and saving `{points: 9, lastSeen: 4}` for `"p"`
stores exactly that record. -/
theorem c4_points_monotone_witness :
    ({ points := 5, lastSeen := 7 } : OfflineRecord).points ≤
      (awardOfflinePoints { points := 5, lastSeen := 7 } 2007).points ∧
    (processRequest initState
        { clientId := "s", now := 1,
          endpoint := .saveOfflineData "p" (some { points := 9, lastSeen := 4 }) }).1.offlineData "p" =
      some { points := 9, lastSeen := 4 } :=
  ⟨c4_points_monotone.1 _ _,
   c4_points_monotone.2.2 initState _ "p" { points := 9, lastSeen := 4 } rfl (by decide)⟩

/-- Floored division is superadditive: splitting an interval never credits
more than spanning it. -/
theorem nat_div_add_div_le (a b c : Nat) (hc : 0 < c) : a / c + b / c ≤ (a + b) / c := by
  rw [Nat.le_div_iff_mul_le hc, Nat.add_mul]
  have ha := Nat.div_mul_le_self a c
  have hb := Nat.div_mul_le_self b c
  omega

/-- C5 (confirmed): starting from a record with `lastSeen = t0 > 0`, two
successive accrual calls after `a` and then `b` more milliseconds credit
`floor(a/1000)*rate + floor(b/1000)*rate` in total, which is at most the
`floor((a+b)/1000)*rate` a single call spanning the whole interval
credits; and each call sets `lastSeen` to its own `now` even when it
credits nothing, so a second rapid call is not a true no-op. -/
theorem c5_split_accrual (p t0 : Int) (a b : Nat) (h : 0 < t0) :
    (awardOfflinePoints { points := p, lastSeen := t0 } (t0 + a)).lastSeen = t0 + a ∧
    (awardOfflinePoints (awardOfflinePoints { points := p, lastSeen := t0 } (t0 + a))
        (t0 + a + b)).lastSeen = t0 + a + b ∧
    (awardOfflinePoints { points := p, lastSeen := t0 } (t0 + a)).points =
      p + ((a / 1000 : Nat) : Int) * POINTS_PER_SECOND_OFFLINE ∧
    (awardOfflinePoints (awardOfflinePoints { points := p, lastSeen := t0 } (t0 + a))
        (t0 + a + b)).points =
      p + ((a / 1000 : Nat) : Int) * POINTS_PER_SECOND_OFFLINE
        + ((b / 1000 : Nat) : Int) * POINTS_PER_SECOND_OFFLINE ∧
    (awardOfflinePoints { points := p, lastSeen := t0 } (t0 + (a + b) : Int)).points =
      p + (((a + b) / 1000 : Nat) : Int) * POINTS_PER_SECOND_OFFLINE ∧
    (awardOfflinePoints (awardOfflinePoints { points := p, lastSeen := t0 } (t0 + a))
        (t0 + a + b)).points ≤
      (awardOfflinePoints { points := p, lastSeen := t0 } (t0 + (a + b) : Int)).points := by
  have h0 : t0 ≠ 0 := by omega
  have hmax : ∀ (t : Int) (n : Nat), max 0 (t + n - t) = (n : Int) := by
    intro t n
    have : t + (n : Int) - t = (n : Int) := by ring
    rw [this]
    exact max_eq_right (Int.natCast_nonneg n)
  have h1 : awardOfflinePoints { points := p, lastSeen := t0 } (t0 + a) =
      { points := p + ((a / 1000 : Nat) : Int) * POINTS_PER_SECOND_OFFLINE, lastSeen := t0 + a } := by
    rw [awardOfflinePoints_eq _ _ h0]
    simp [hmax, Int.toNat_natCast]
  have h0a : (t0 + (a : Int)) ≠ 0 := by
    have := Int.natCast_nonneg a
    omega
  have h2 : awardOfflinePoints (awardOfflinePoints { points := p, lastSeen := t0 } (t0 + a))
      (t0 + a + b) =
      { points := p + ((a / 1000 : Nat) : Int) * POINTS_PER_SECOND_OFFLINE
          + ((b / 1000 : Nat) : Int) * POINTS_PER_SECOND_OFFLINE, lastSeen := t0 + a + b } := by
    rw [h1, awardOfflinePoints_eq _ _ h0a]
    have : max 0 (t0 + (a : Int) + b - (t0 + a)) = (b : Int) := by
      have harr : t0 + (a : Int) + b - (t0 + a) = (b : Int) := by ring
      rw [harr]
      exact max_eq_right (Int.natCast_nonneg b)
    simp [this, Int.toNat_natCast, add_assoc]
  have h3 : awardOfflinePoints { points := p, lastSeen := t0 } (t0 + (a + b) : Int) =
      { points := p + (((a + b) / 1000 : Nat) : Int) * POINTS_PER_SECOND_OFFLINE,
        lastSeen := t0 + (a + b) } := by
    rw [awardOfflinePoints_eq _ _ h0]
    have : max 0 (t0 + ((a + b : Nat) : Int) - t0) = ((a + b : Nat) : Int) := hmax t0 (a + b)
    simp only [Nat.cast_add] at this
    simp [this, hmax, Int.toNat_natCast]
    norm_cast
    simp [Int.toNat_natCast]
  refine ⟨by rw [h1], by rw [h2], by rw [h1], by rw [h2], by rw [h3], ?_⟩
  rw [h2, h3]
  have hkey : (a / 1000 : Nat) + (b / 1000 : Nat) ≤ ((a + b) / 1000 : Nat) :=
    nat_div_add_div_le a b 1000 (by omega)
  have hcast : (((a / 1000 : Nat) : Int)) + ((b / 1000 : Nat) : Int) ≤ (((a + b) / 1000 : Nat) : Int) := by
    exact_mod_cast hkey
  unfold POINTS_PER_SECOND_OFFLINE
  simp only [mul_one]
  omega

/-- C5 (witness): `t0 = 1`, split `2200 = 1500 + 700`: the two calls
credit `1 + 0 = 1` point against `2` for a single call, and `lastSeen`
advances to each call's `now`. -/
theorem c5_split_accrual_witness :
    (awardOfflinePoints { points := 0, lastSeen := 1 } (1 + (1500 : Nat))).lastSeen = 1 + (1500 : Nat) ∧
    (awardOfflinePoints (awardOfflinePoints { points := 0, lastSeen := 1 } (1 + (1500 : Nat)))
        (1 + (1500 : Nat) + (700 : Nat))).lastSeen = 1 + (1500 : Nat) + (700 : Nat) ∧
    (awardOfflinePoints { points := 0, lastSeen := 1 } (1 + (1500 : Nat))).points =
      0 + (((1500 : Nat) / 1000 : Nat) : Int) * POINTS_PER_SECOND_OFFLINE ∧
    (awardOfflinePoints (awardOfflinePoints { points := 0, lastSeen := 1 } (1 + (1500 : Nat)))
        (1 + (1500 : Nat) + (700 : Nat))).points =
      0 + (((1500 : Nat) / 1000 : Nat) : Int) * POINTS_PER_SECOND_OFFLINE
        + (((700 : Nat) / 1000 : Nat) : Int) * POINTS_PER_SECOND_OFFLINE ∧
    (awardOfflinePoints { points := 0, lastSeen := 1 } (1 + ((1500 : Nat) + (700 : Nat)) : Int)).points =
      0 + ((((1500 : Nat) + (700 : Nat)) / 1000 : Nat) : Int) * POINTS_PER_SECOND_OFFLINE ∧
    (awardOfflinePoints (awardOfflinePoints { points := 0, lastSeen := 1 } (1 + (1500 : Nat)))
        (1 + (1500 : Nat) + (700 : Nat))).points ≤
      (awardOfflinePoints { points := 0, lastSeen := 1 } (1 + ((1500 : Nat) + (700 : Nat)) : Int)).points :=
  c5_split_accrual 0 1 1500 700 (by decide)

/-! ## Claim C2: the presence invariant -/

theorem runPresence_concat (l : List PEvent) (e : PEvent) :
    runPresence (l ++ [e]) = presenceStep (runPresence l) e := by
  simp [runPresence, List.foldl_append]

/-- Membership in `activePlayers` is decided by the most recent event
attributed to the key: a start puts it in, a close takes it out, no matter
how many other connections with the same key remain open. -/
theorem mem_runPresence (evs : List PEvent) (k : String) :
    k ∈ runPresence evs ↔ lastTouchIsStart evs k = true := by
  induction evs using List.reverseRecOn with
  | nil => simp [runPresence, lastTouchIsStart]
  | append_singleton l e ih =>
    rw [runPresence_concat]
    unfold lastTouchIsStart
    rw [List.filter_append]
    by_cases hk : keyOf e == k
    · have hfe : List.filter (fun e' => keyOf e' == k) [e] = [e] := by
        simp [List.filter, hk]
      rw [hfe, List.getLast?_concat]
      have hkeq : keyOf e = k := by simpa using hk
      cases e with
      | start k0 =>
        have : k0 = k := hkeq
        subst this
        simp [presenceStep]
      | close k0 =>
        have : k0 = k := hkeq
        subst this
        simp [presenceStep]
    · have hfe : List.filter (fun e' => keyOf e' == k) [e] = [] := by
        simp only [List.filter]
        rw [Bool.not_eq_true] at hk
        simp [hk]
      rw [hfe, List.append_nil]
      have hkne : keyOf e ≠ k := by simpa using hk
      unfold lastTouchIsStart at ih
      cases e with
      | start k0 =>
        have hne : k ≠ k0 := fun h => hkne (by simpa [keyOf] using h.symm)
        simp [presenceStep, Finset.mem_insert, hne, ih]
      | close k0 =>
        have hne : k ≠ k0 := fun h => hkne (by simpa [keyOf] using h.symm)
        simp [presenceStep, Finset.mem_erase, hne, ih]

theorem runPresence_subset_keys (evs : List PEvent) (k : String) :
    k ∈ runPresence evs → k ∈ evs.map keyOf := by
  induction evs using List.reverseRecOn with
  | nil => simp [runPresence]
  | append_singleton l e ih =>
    rw [runPresence_concat]
    cases e with
    | start k0 =>
      intro h
      rcases Finset.mem_insert.mp h with h | h
      · subst h; simp [keyOf]
      · have := ih h
        simp only [List.map_append, List.mem_append]
        exact Or.inl this
    | close k0 =>
      intro h
      have := ih (Finset.mem_erase.mp h).2
      simp only [List.map_append, List.mem_append]
      exact Or.inl this

/-- C2 (counterexample): the valid event sequence "two connections with
key `a` start, then one of them closes" leaves `a` with one open
connection yet absent from `activePlayers`: `Set.delete` removes the key
wholesale. -/
theorem c2_counterexample :
    validFrom (fun _ => 0) [.start "a", .start "a", .close "a"] = true ∧
    ¬ (("a" ∈ runPresence [.start "a", .start "a", .close "a"]) ↔
        0 < openConns [.start "a", .start "a", .close "a"] "a") ∧
    (runPresence [.start "a", .start "a", .close "a"]).card = 0 := by
  refine ⟨by decide, ?_, by decide⟩
  intro hiff
  have h1 : 0 < openConns [.start "a", .start "a", .close "a"] "a" := by decide
  have h2 : "a" ∉ runPresence [PEvent.start "a", .start "a", .close "a"] := by decide
  exact h2 (hiff.mpr h1)

/-- C2 (amended): a key is in `activePlayers` iff the most recent
start/close event attributed to it is a request start (not: iff some
connection is still open), and `currentPlayers` — the set's size — equals
the number of distinct keys whose most recent event is a start. -/
theorem c2_presence (evs : List PEvent) (k : String) :
    (k ∈ runPresence evs ↔ lastTouchIsStart evs k = true) ∧
    (runPresence evs).card =
      ((evs.map keyOf).dedup.filter (fun k' => lastTouchIsStart evs k')).length := by
  refine ⟨mem_runPresence evs k, ?_⟩
  have hnd : ((evs.map keyOf).dedup.filter (fun k' => lastTouchIsStart evs k')).Nodup :=
    List.Nodup.filter _ (List.nodup_dedup _)
  have hset : runPresence evs =
      ((evs.map keyOf).dedup.filter (fun k' => lastTouchIsStart evs k')).toFinset := by
    ext k'
    rw [List.mem_toFinset, List.mem_filter, List.mem_dedup, mem_runPresence]
    constructor
    · intro h
      refine ⟨?_, h⟩
      exact runPresence_subset_keys evs k' ((mem_runPresence evs k').mpr h)
    · intro h
      exact h.2
  rw [hset, List.toFinset_card_of_nodup hnd]

/-! ## Claim C3: save / get round trip -/

/-- C3 (counterexample): save `{points: 5, lastSeen: 1000}` for `"p"`,
then `get-offline-data` for `"p"` from a connection whose derived key is
also `"p"` at `now = 3500`: the presence middleware's accrual pass rewrites
the record to `{points: 7, lastSeen: 3500}` before the handler reads it,
so the response is not the saved payload. -/
theorem c3_counterexample :
    (processRequest
        (processRequest initState
          { clientId := "s", now := 0,
            endpoint := .saveOfflineData "p" (some { points := 5, lastSeen := 1000 }) }).1
        { clientId := "p", now := 3500, endpoint := .getOfflineData "p" }).2 =
      .offline { points := 7, lastSeen := 3500 } ∧
    Response.offline { points := 7, lastSeen := 3500 } ≠
      .offline { points := 5, lastSeen := 1000 } := by
  constructor <;> decide

/-- C3 (amended): a save of payload `d` for `playerId p` followed
immediately by a get for `p` returns exactly `d`, unmodified, provided the
get request's middleware-derived PlayerKey differs from `p`; when they
coincide, the middleware's accrual pass rewrites the record before the
handler reads it. -/
theorem c3_save_get (s : ServerState) (kS kG p : String) (nowS nowG : Int) (d : OfflineRecord)
    (hp : p ≠ "") (hne : kG ≠ p) :
    (processRequest
        (processRequest s { clientId := kS, now := nowS, endpoint := .saveOfflineData p (some d) }).1
        { clientId := kG, now := nowG, endpoint := .getOfflineData p }).2 = .offline d := by
  have hps : p ≠ kG := fun h => hne h.symm
  simp [processRequest, handlerStep, middlewareStep, middlewareOffline, hp, hps]

/-- C3 (witness): saving `{points: 5, lastSeen: 1000}` for `"p"` and
reading it back from a connection keyed `"g"` returns the payload
unmodified. -/
theorem c3_save_get_witness :
    (processRequest
        (processRequest initState
          { clientId := "s", now := 0,
            endpoint := .saveOfflineData "p" (some { points := 5, lastSeen := 1000 }) }).1
        { clientId := "g", now := 3500, endpoint := .getOfflineData "p" }).2 =
      .offline { points := 5, lastSeen := 1000 } :=
  c3_save_get initState "s" "g" "p" 0 3500 { points := 5, lastSeen := 1000 }
    (by decide) (by decide)

/-! ## Claims C6, C7: the review log -/

theorem pushReview_length_le (rs : List Review) (r : Review) :
    (pushReview rs r).length ≤ 100 := by
  simp only [pushReview]
  split
  · rw [List.length_drop]
    omega
  · rename_i h
    rw [List.length_append] at h ⊢
    omega

theorem submitReviewH_length_le (rs : List Review) (b : ReviewBody) (h : rs.length ≤ 100) :
    (submitReviewH rs b).1.length ≤ 100 := by
  unfold submitReviewH
  split
  · exact h
  · exact pushReview_length_le _ _

theorem foldl_submitReviewH_length_le (bodies : List ReviewBody) (acc : List Review)
    (h : acc.length ≤ 100) :
    (bodies.foldl (fun a b => (submitReviewH a b).1) acc).length ≤ 100 := by
  induction bodies generalizing acc with
  | nil => exact h
  | cons b t ih => exact ih _ (submitReviewH_length_le acc b h)

theorem foldl_pushReview_no_trunc (l : List Review) (acc : List Review)
    (h : acc.length + l.length ≤ 100) :
    l.foldl pushReview acc = acc ++ l := by
  induction l generalizing acc with
  | nil => simp
  | cons r t ih =>
    simp only [List.length_cons] at h
    have hnot : ¬ (acc ++ [r]).length > 100 := by
      simp only [List.length_append, List.length_cons, List.length_nil]
      omega
    have hpush : pushReview acc r = acc ++ [r] := by
      simp only [pushReview]
      rw [if_neg hnot]
    have hlen : (acc ++ [r]).length + t.length ≤ 100 := by
      simp only [List.length_append, List.length_cons, List.length_nil]
      omega
    rw [List.foldl_cons, hpush, ih (acc ++ [r]) hlen]
    simp

theorem getReviews_eq (rs : List Review) : getReviews rs = rs.reverse.take 10 := by
  unfold getReviews
  have h := @List.reverse_take Review rs.reverse 10
  rw [List.reverse_reverse, List.length_reverse] at h
  rw [← h, List.reverse_reverse]

/-- C6 (confirmed): the review log never exceeds 100 entries across any
sequence of submit-review requests; submitting 101 reviews retains
exactly the last 100 (the oldest is dropped); and `get-reviews` returns
the at-most-10 most recent reviews, newest first. -/
theorem c6_review_log (bodies : List ReviewBody) (l rs : List Review) (h : l.length = 101) :
    (bodies.foldl (fun a b => (submitReviewH a b).1) []).length ≤ 100 ∧
    l.foldl pushReview [] = l.drop 1 ∧
    getReviews rs = rs.reverse.take 10 ∧
    (getReviews rs).length ≤ 10 := by
  refine ⟨foldl_submitReviewH_length_le bodies [] (by simp), ?_, getReviews_eq rs, ?_⟩
  · have hsplit : l.take 100 ++ l.drop 100 = l := List.take_append_drop 100 l
    have htake : (l.take 100).length = 100 := by
      rw [List.length_take]
      omega
    have hdrop : (l.drop 100).length = 1 := by
      rw [List.length_drop]
      omega
    obtain ⟨r, hr⟩ := List.length_eq_one.mp hdrop
    have hfold : l.foldl pushReview [] = (l.take 100 ++ [r]).foldl pushReview [] := by
      rw [← hr, hsplit]
    rw [hfold, List.foldl_append]
    have hnt : (l.take 100).foldl pushReview [] = l.take 100 := by
      have := foldl_pushReview_no_trunc (l.take 100) [] (by simp [htake])
      simpa using this
    rw [List.foldl_cons, List.foldl_nil, hnt]
    have hl : l.take 100 ++ [r] = l := by rw [← hr, hsplit]
    have hgt : (l.take 100 ++ [r]).length > 100 := by
      simp [List.length_append, htake]
    simp only [pushReview]
    rw [if_pos hgt, hl, h]
  · rw [getReviews_eq]
    have := List.length_take_le 10 rs.reverse
    omega

/-- C6 (witness): 101 identical reviews fold down to the last 100, and a
15-element log serves its last 10 newest-first. -/
theorem c6_review_log_witness :
    (([] : List ReviewBody).foldl (fun a b => (submitReviewH a b).1) []).length ≤ 100 ∧
    (List.replicate 101 ({ text := "a", timestamp := 1 } : Review)).foldl pushReview [] =
      (List.replicate 101 ({ text := "a", timestamp := 1 } : Review)).drop 1 ∧
    getReviews (List.replicate 15 ({ text := "a", timestamp := 1 } : Review)) =
      (List.replicate 15 ({ text := "a", timestamp := 1 } : Review)).reverse.take 10 ∧
    (getReviews (List.replicate 15 ({ text := "a", timestamp := 1 } : Review))).length ≤ 10 :=
  c6_review_log [] (List.replicate 101 { text := "a", timestamp := 1 })
    (List.replicate 15 { text := "a", timestamp := 1 }) (by simp)

/-- C7 (counterexample): a submit-review request whose `text` field is
present but the empty string is rejected (JavaScript `!text` is true for
`""`), contradicting "for every request in which both fields are present,
an entry is appended". -/
theorem c7_counterexample :
    ({ text := some "", timestamp := some 5 } : ReviewBody).text ≠ none ∧
    ({ text := some "", timestamp := some 5 } : ReviewBody).timestamp ≠ none ∧
    submitReviewH [] { text := some "", timestamp := some 5 } =
      ([], .failure "Missing required fields") := by
  refine ⟨by decide, by decide, by decide⟩

/-- C7 (amended): a submit-review request succeeds iff both fields are
present and truthy (`text` a non-empty string, `timestamp` non-zero); on
rejection the log is unchanged and the structured body
`{success: false, error}` is returned; on success the entry is appended
(capped at 100). -/
theorem c7_submit_review (rs : List Review) (b : ReviewBody) :
    ((submitReviewH rs b).2 = .success ↔
      truthyStr b.text = true ∧ truthyNum b.timestamp = true) ∧
    ((submitReviewH rs b).2 ≠ .success →
      (submitReviewH rs b).1 = rs ∧
      (submitReviewH rs b).2 = .failure "Missing required fields") ∧
    (truthyStr b.text = true → truthyNum b.timestamp = true →
      (submitReviewH rs b).1 =
        pushReview rs { text := b.text.getD "", timestamp := b.timestamp.getD 0 }) := by
  cases hT : truthyStr b.text <;> cases hN : truthyNum b.timestamp <;>
    simp [submitReviewH, hT, hN]

/-- C7 (witness): `{text: "hi", timestamp: 5}` is accepted and appended;
the response is `{success: true}`. -/
theorem c7_submit_review_witness :
    (submitReviewH [] { text := some "hi", timestamp := some 5 }).2 = .success ∧
    (submitReviewH [] { text := some "hi", timestamp := some 5 }).1 =
      pushReview [] { text := (some "hi").getD "", timestamp := (some (5 : Int)).getD 0 } :=
  ⟨(c7_submit_review [] { text := some "hi", timestamp := some 5 }).1.mpr ⟨by decide, by decide⟩,
   (c7_submit_review [] { text := some "hi", timestamp := some 5 }).2.2 (by decide) (by decide)⟩

/-! ## Claim C8: startup load -/

/-- C8 (confirmed): a read/parse failure at startup leaves the in-memory
state empty/default in both variants (the load never fails fatally: it is
a total function into a well-defined state); a successful parse installs
the parsed mapping, with `points` and `lastSeen` coerced through the `||`
defaults (`0` and `now` respectively) in the offline-record variant, and
field-wise merge over the defaults in the server.js variant. -/
theorem c8_startup_load (entries : List (String × RawRecord)) (now p ls : Int) (k : String)
    (hp : p ≠ 0) (hls : ls ≠ 0) :
    loadOfflineData none now k = none ∧
    loadOfflineData (some entries) now k =
      (entries.lookup k).map (fun v => normalizeRecord v now) ∧
    normalizeRecord { points := none, lastSeen := none } now = { points := 0, lastSeen := now } ∧
    normalizeRecord { points := some p, lastSeen := some ls } now = { points := p, lastSeen := ls } ∧
    loadData none = (0, []) ∧
    (∀ (t : Nat) (rvs : List Review),
      loadData (some { totalPlayers := some t, reviews := some rvs }) = (t, rvs)) ∧
    loadData (some { totalPlayers := none, reviews := none }) = (0, []) := by
  refine ⟨rfl, rfl, by simp [normalizeRecord, jsOrOpt], ?_, rfl, fun t rvs => rfl, rfl⟩
  simp [normalizeRecord, jsOrOpt, hp, hls]

/-- C8 (witness): loading one entry `{points: 5, lastSeen: 7}` at `now = 9`
keeps it as-is; a failed load yields the empty map. -/
theorem c8_startup_load_witness :
    loadOfflineData none 9 "p" = none ∧
    normalizeRecord { points := some 5, lastSeen := some 7 } 9 = { points := 5, lastSeen := 7 } :=
  ⟨(c8_startup_load [("p", { points := some 5, lastSeen := some 7 })] 9 5 7 "p"
      (by decide) (by decide)).1,
   (c8_startup_load [("p", { points := some 5, lastSeen := some 7 })] 9 5 7 "p"
      (by decide) (by decide)).2.2.2.1⟩

/-! ## Claim C9: totalPlayers -/

theorem middlewareStep_total (s : ServerState) (k : String) (now : Int) :
    (middlewareStep s k now).totalPlayers = max s.totalPlayers (insert k s.activePlayers).card := rfl

theorem middlewareStep_current (s : ServerState) (k : String) (now : Int) :
    (middlewareStep s k now).currentPlayers = (insert k s.activePlayers).card := rfl

theorem handlerStep_total_le (s : ServerState) (r : Request) :
    s.totalPlayers ≤ (handlerStep s r).1.totalPlayers := by
  cases hr : r.endpoint <;> simp only [handlerStep, hr]
  · omega
  · exact le_refl _
  · exact le_refl _
  · exact le_refl _
  · exact le_refl _
  · split
    · exact le_refl _
    · split <;> exact le_refl _
  · split
    · exact le_refl _
    · split <;> exact le_refl _
  · split
    · exact le_refl _
    · exact le_refl _

theorem handlerStep_total_eq (s : ServerState) (r : Request) (h : r.endpoint ≠ .root) :
    (handlerStep s r).1.totalPlayers = s.totalPlayers := by
  cases hr : r.endpoint <;> simp only [handlerStep, hr]
  · exact absurd hr h
  · split
    · rfl
    · split <;> rfl
  · split
    · rfl
    · split <;> rfl
  · split
    · rfl
    · rfl

theorem stepEv_total_le (s : ServerState) (e : Ev) :
    s.totalPlayers ≤ (stepEv s e).totalPlayers := by
  cases e with
  | req r =>
    calc s.totalPlayers
        ≤ (middlewareStep s r.clientId r.now).totalPlayers := by
          rw [middlewareStep_total]; exact le_max_left _ _
      _ ≤ (handlerStep (middlewareStep s r.clientId r.now) r).1.totalPlayers :=
          handlerStep_total_le _ r
  | close k => exact le_refl _

theorem stepSJ_total_le (s : SJState) (e : EvSJ) :
    s.totalPlayers ≤ (stepSJ s e).totalPlayers := by
  cases e with
  | req k ep => cases ep <;> simp [stepSJ, sjHandler, sjMiddleware]
  | close k => exact le_refl _

theorem runSJ_total (evs : List EvSJ) : ∀ s0 : SJState,
    (runSJ s0 evs).totalPlayers = s0.totalPlayers + countRoots evs := by
  induction evs with
  | nil => intro s0; simp [runSJ, countRoots]
  | cons e t ih =>
    intro s0
    have hstep : runSJ s0 (e :: t) = runSJ (stepSJ s0 e) t := rfl
    rw [hstep, ih]
    cases e with
    | req k ep =>
      cases ep <;> simp [stepSJ, sjHandler, sjMiddleware, countRoots, List.filter_cons]
      omega
    | close k => simp [stepSJ, countRoots, List.filter_cons]

theorem run000_total_no_root (evs : List Ev) : ∀ s0 : ServerState,
    (∀ e ∈ evs, isRootReq e = false) →
    (run000 s0 evs).totalPlayers = (obsCurrents s0 evs).foldl max s0.totalPlayers := by
  induction evs with
  | nil => intro s0 _; rfl
  | cons e t ih =>
    intro s0 h
    have ht : ∀ e' ∈ t, isRootReq e' = false := fun e' he' => h e' (List.mem_cons_of_mem e he')
    cases e with
    | close k =>
      have h1 : run000 s0 (.close k :: t) = run000 (closeStep s0 k) t := rfl
      have h2 : obsCurrents s0 (.close k :: t) = obsCurrents (closeStep s0 k) t := rfl
      rw [h1, h2, ih _ ht]
      rfl
    | req r =>
      have he := h (.req r) (List.mem_cons_self _ _)
      have hroot : r.endpoint ≠ .root := by
        simpa [isRootReq] using he
      have h1 : run000 s0 (.req r :: t) = run000 (stepEv s0 (.req r)) t := rfl
      have h2 : obsCurrents s0 (.req r :: t) =
          (middlewareStep s0 r.clientId r.now).currentPlayers :: obsCurrents (stepEv s0 (.req r)) t := rfl
      rw [h1, h2, ih _ ht, List.foldl_cons]
      have h3 : (stepEv s0 (.req r)).totalPlayers =
          max s0.totalPlayers (middlewareStep s0 r.clientId r.now).currentPlayers := by
        show (handlerStep (middlewareStep s0 r.clientId r.now) r).1.totalPlayers = _
        rw [handlerStep_total_eq _ _ hroot, middlewareStep_total, middlewareStep_current]
      rw [h3]

/-- C9 (counterexample): in the part_000 variant a single root-page
request drives `totalPlayers` to 2 while the historical maximum of
`currentPlayers` observed is 1: the middleware's `Math.max` update AND the
root handler's `totalPlayers++` both fire, so it does not equal the
historical maximum and the root handler is another operation modifying
it. -/
theorem c9_counterexample :
    (run000 initState [.req { clientId := "a", now := 1, endpoint := .root }]).totalPlayers = 2 ∧
    (obsCurrents initState [.req { clientId := "a", now := 1, endpoint := .root }]).foldl
        max initState.totalPlayers = 1 ∧
    (2 : Nat) ≠ 1 := by
  refine ⟨by decide, by decide, by decide⟩

/-- C9 (amended): `totalPlayers` is monotonically non-decreasing under
every operation in both variants; in the server.js variant it is
incremented exactly once per root-page load and modified nowhere else;
in the part_000 variant it equals the running maximum of the observed
`currentPlayers` values only over event sequences with no root-page
loads — each root-page load additionally increments it. -/
theorem c9_totalPlayers :
    (∀ (s : ServerState) (e : Ev), s.totalPlayers ≤ (stepEv s e).totalPlayers) ∧
    (∀ (s : SJState) (e : EvSJ), s.totalPlayers ≤ (stepSJ s e).totalPlayers) ∧
    (∀ (s0 : SJState) (evs : List EvSJ),
      (runSJ s0 evs).totalPlayers = s0.totalPlayers + countRoots evs) ∧
    (∀ (s0 : ServerState) (evs : List Ev), (∀ e ∈ evs, isRootReq e = false) →
      (run000 s0 evs).totalPlayers = (obsCurrents s0 evs).foldl max s0.totalPlayers) :=
  ⟨stepEv_total_le, stepSJ_total_le, fun s0 evs => runSJ_total evs s0,
   fun s0 evs h => run000_total_no_root evs s0 h⟩

/-- C9 (witness): a non-root request raises part_000's `totalPlayers` to
the observed concurrency maximum, and one root load in server.js adds
exactly one. -/
theorem c9_totalPlayers_witness :
    initState.totalPlayers ≤
      (stepEv initState (.req { clientId := "a", now := 1, endpoint := .playerCount })).totalPlayers ∧
    (runSJ { totalPlayers := 0, reviews := [], activePlayers := ∅, currentPlayers := 0 }
        [.req "a" .root]).totalPlayers =
      ({ totalPlayers := 0, reviews := [], activePlayers := ∅, currentPlayers := 0 } : SJState).totalPlayers
        + countRoots [.req "a" .root] ∧
    (run000 initState [.req { clientId := "a", now := 1, endpoint := .playerCount }]).totalPlayers =
      (obsCurrents initState [.req { clientId := "a", now := 1, endpoint := .playerCount }]).foldl
        max initState.totalPlayers :=
  ⟨c9_totalPlayers.1 initState _,
   c9_totalPlayers.2.2.1 _ [.req "a" .root],
   c9_totalPlayers.2.2.2 initState [.req { clientId := "a", now := 1, endpoint := .playerCount }]
     (by decide)⟩

/-! ## Claim C10: the per-request frame on the offline store -/

/-- C10 (confirmed): even the read-only endpoints (`get-reviews`,
`player-count`, `get-offline-data`) mutate the offline store for the
requester's derived key before their handler runs — creating
`{points: 0, lastSeen: now}` on first sight, crediting accrual and
advancing `lastSeen` otherwise — and leave every other key's record
unchanged. -/
theorem c10_middleware_frame (s : ServerState) (r : Request)
    (h : r.endpoint = .getReviews ∨ r.endpoint = .playerCount ∨
      ∃ pid, r.endpoint = .getOfflineData pid) :
    (processRequest s r).1.offlineData r.clientId =
      some (touchRecord (s.offlineData r.clientId) r.now) ∧
    (∀ k', k' ≠ r.clientId → (processRequest s r).1.offlineData k' = s.offlineData k') ∧
    (s.offlineData r.clientId = none →
      (processRequest s r).1.offlineData r.clientId = some { points := 0, lastSeen := r.now }) ∧
    (∀ st, s.offlineData r.clientId = some st →
      (processRequest s r).1.offlineData r.clientId = some (awardOfflinePoints st r.now)) := by
  have hod : (processRequest s r).1.offlineData =
      middlewareOffline s.offlineData r.clientId r.now := by
    rcases h with h | h | ⟨pid, h⟩
    · simp [processRequest, handlerStep, h, middlewareStep]
    · simp [processRequest, handlerStep, h, middlewareStep]
    · by_cases hpid : pid = ""
      · simp [processRequest, handlerStep, h, hpid, middlewareStep]
      · simp only [processRequest, handlerStep, h]
        rw [if_neg hpid]
        cases hmk : (middlewareStep s r.clientId r.now).offlineData pid <;>
          simp [hmk, middlewareStep]
  refine ⟨?_, ?_, ?_, ?_⟩
  · rw [hod]; simp [middlewareOffline]
  · intro k' hk; rw [hod]; simp [middlewareOffline, hk]
  · intro hn; rw [hod]; simp [middlewareOffline, touchRecord, hn]
  · intro st hst; rw [hod]; simp [middlewareOffline, touchRecord, hst]

/-- C10 (witness): a `get-reviews` request keyed `"g"` at `t = 10` creates
`{points: 0, lastSeen: 10}` for `"g"` and leaves `"z"` unchanged. -/
theorem c10_middleware_frame_witness :
    (processRequest initState { clientId := "g", now := 10, endpoint := .getReviews }).1.offlineData "g" =
      some { points := 0, lastSeen := 10 } ∧
    (processRequest initState { clientId := "g", now := 10, endpoint := .getReviews }).1.offlineData "z" =
      none := by
  refine ⟨(c10_middleware_frame initState _ (Or.inl rfl)).2.2.1 rfl, ?_⟩
  rw [(c10_middleware_frame initState { clientId := "g", now := 10, endpoint := .getReviews }
      (Or.inl rfl)).2.1 "z" (by decide)]
  rfl

end KC
